import Mathlib

/-!
Verification of the Logogear portal generation scripts
(src/backend/scripts/generate_bluedart.py and generate_dc.py).

Strings are modelled as lists of characters (`Str`).  The Python string
operations used by the scripts (strip, replace, split, join, lower) are
embedded below, together with the decimal rendering and parsing used by the
persistent reference counter (Python str(int) / int(str) / f-string
zero-padding).
-/

namespace Logogear

/-- Python strings, modelled as lists of characters. -/
abbrev Str := List Char

/-- The ASCII whitespace characters recognised by Python str.strip() and
str.split() (space, tab, newline, carriage return, vertical tab, form feed).
Unicode whitespace is outside the scope of the inputs considered here. -/
def isPyWs (c : Char) : Bool :=
  c = ' ' || c = '\t' || c = '\n' || c = '\r' || c = '\x0b' || c = '\x0c'

/-- Python str.strip(): drop leading and trailing whitespace. -/
def pyStrip (s : Str) : Str :=
  ((s.dropWhile isPyWs).reverse.dropWhile isPyWs).reverse

/-- Python str.replace(a, b) for single characters, as used at
generate_bluedart.py:86-87 (replacing newline, CR and tab by spaces). -/
def replaceChar (a b : Char) (s : Str) : Str :=
  s.map (fun c => if c = a then b else c)

/-- Worker for str.split(): accumulates the current (reversed) run of
non-whitespace characters and emits it when whitespace or the end is hit. -/
def splitAux : Str → Str → List Str
  | [], acc => if acc.isEmpty then [] else [acc.reverse]
  | c :: cs, acc =>
    if isPyWs c then
      if acc.isEmpty then splitAux cs [] else acc.reverse :: splitAux cs []
    else splitAux cs (c :: acc)

/-- Python str.split() with no arguments: maximal runs of non-whitespace
characters, with leading/trailing/repeated whitespace discarded. -/
def pySplit (s : Str) : List Str := splitAux s []

/-- Python " ".join(chunks). -/
def joinSp : List Str → Str
  | [] => []
  | [t] => t
  | t :: ts => t ++ ' ' :: joinSp ts

/-- Python str.lower() restricted to ASCII letters (the inputs compared with
it in the scripts are plain ASCII). -/
def asciiLower (s : Str) : Str := s.map Char.toLower

/-- Fuel-indexed decimal rendering; the fuel only forces termination and is
irrelevant as soon as it exceeds the number (natDigitsF_congr below). -/
def natDigitsF : Nat → Nat → Str
  | 0, _ => []
  | fuel + 1, n =>
    if n < 10 then [Char.ofNat (48 + n)]
    else natDigitsF fuel (n / 10) ++ [Char.ofNat (48 + n % 10)]

/-- Decimal digit characters of a natural number, most significant first:
the rendering used by Python str() / format() for non-negative integers. -/
def natDigits (n : Nat) : Str := natDigitsF (n + 1) n

/-- Value of a list of decimal digit characters (most significant first). -/
def natFromDigits (l : Str) : Nat :=
  l.foldl (fun a c => a * 10 + (c.toNat - 48)) 0

/-- Left-pad a digit string with zeros to width k, as f-string 0-padding
does after any sign. -/
def zeroPad (k : Nat) (l : Str) : Str :=
  List.replicate (k - l.length) '0' ++ l

/-- Python str() of an integer. -/
def intRepr (n : Int) : Str :=
  if n < 0 then '-' :: natDigits n.natAbs else natDigits n.natAbs

/-- Python f"{n:03d}": zero-pad to total width 3, the sign counting towards
the width and the zeros coming after the sign. -/
def pad3 (n : Int) : Str :=
  if n < 0 then '-' :: zeroPad 2 (natDigits n.natAbs)
  else zeroPad 3 (natDigits n.natAbs)

/-- Decimal digit test used when parsing an integer literal. -/
def isDigitCh (c : Char) : Bool := 48 ≤ c.toNat && c.toNat ≤ 57

/-- Python int(str): optional surrounding whitespace, optional sign, then a
non-empty run of decimal digits; anything else raises ValueError (None here).
Exotic accepted forms (digit-group underscores, non-ASCII digits) are not
modelled; no input considered here uses them. -/
def pyInt? (s : Str) : Option Int :=
  match pyStrip s with
  | [] => none
  | c :: ds =>
    if c = '-' then
      if !ds.isEmpty && ds.all isDigitCh then some (-(natFromDigits ds : Int)) else none
    else if c = '+' then
      if !ds.isEmpty && ds.all isDigitCh then some ((natFromDigits ds : Int)) else none
    else
      if (c :: ds).all isDigitCh then some ((natFromDigits (c :: ds)) : Int) else none

/-! ## Input rows and the pandas reading layer

An input row is modelled as an association list from column names to the raw
cell text of the CSV.  pandas read_csv converts a cell whose text is one of
its default NA markers into NaN; str() of that NaN is the text "nan".  This
is the only part of the column type inference that the claims depend on, so
cells are otherwise kept as their text. -/

/-- One parsed input row: column name to raw cell text. -/
abbrev Row := List (String × Str)

/-- Column access by name; none models a KeyError on row[name]. -/
def lookupCol (r : Row) (c : String) : Option Str :=
  (r.find? (fun p => p.fst == c)).map Prod.snd

/-- The default NA markers of pandas read_csv: a cell holding exactly one of
these strings is parsed as NaN. -/
def NA_VALUES : List Str :=
  [ [], "#N/A".data, "#N/A N/A".data, "#NA".data, "-1.#IND".data,
    "-1.#QNAN".data, "-NaN".data, "-nan".data, "1.#IND".data, "1.#QNAN".data,
    "<NA>".data, "N/A".data, "NA".data, "NULL".data, "NaN".data, "None".data,
    "n/a".data, "nan".data, "null".data ]

/-- Python str() of a parsed cell value: NaN prints as "nan", any other cell
keeps its text. -/
def pdStr (cell : Str) : Str :=
  if cell ∈ NA_VALUES then "nan".data else cell

/-- str(row.get(name, default)): default when the column is absent,
otherwise str() of the parsed cell. -/
def getOpt (r : Row) (c : String) (d : Str) : Str :=
  match lookupCol r c with
  | none => d
  | some cell => pdStr cell

/-! ## generate_bluedart.py: the manifest pipeline -/

/-- Reference text, generate_bluedart.py:101: f"LGS-INV-{n:03d}". -/
def ref_text (n : Int) : Str := "LGS-INV-".data ++ pad3 n

/-- Loading the persisted counter, generate_bluedart.py:55-64: absent file
or unparsable content falls back to 0. -/
def load_ref_counter : Option Str → Int
  | none => 0
  | some s => (pyInt? (pyStrip s)).getD 0

/-- The extracted landmark, generate_bluedart.py:78:
str(row.get("Landmark", "")).strip(). -/
def landmarkOf (r : Row) : Str := pyStrip (getOpt r "Landmark" [])

/-- Lines 81-94 of generate_bluedart.py, applied to the stripped street and
landmark: clear a landmark equal (lowercased) to "nan" or empty, replace
newline, CR and tab by spaces in both, append ", " + landmark when present,
then collapse all whitespace runs with " ".join(address.split()). -/
def buildDeliveryAddress (street0 landmark0 : Str) : Str :=
  let landmark1 := if asciiLower landmark0 = "nan".data ∨ landmark0 = [] then [] else landmark0
  let street := replaceChar '\t' ' ' (replaceChar '\r' ' ' (replaceChar '\n' ' ' street0))
  let landmark := replaceChar '\t' ' ' (replaceChar '\r' ' ' (replaceChar '\n' ' ' landmark1))
  let addr := if landmark.isEmpty then street else street ++ (',' :: ' ' :: landmark)
  joinSp (pySplit addr)

/-- The per-row data that varies in an output manifest row; the remaining
columns are constants or empty (see outRowCells).  full_name is used for
Company Name and Receiver Name, mobile for Receiver Telephone and Receiver
mobile, and the reference text for Reference No and Invoice No, exactly as
in out_row at generate_bluedart.py:103-136. -/
structure OutRow where
  refNo : Str
  fullName : Str
  deliveryAddress : Str
  pincode : Str
  mobile : Str
  deriving DecidableEq, Repr

/-- Rows 75-136 of generate_bluedart.py: read the required columns (a missing
column raises, caught at line 141 and turned into a skip, modelled by none),
normalize, and build the output record for reference number n. -/
def transformRow (r : Row) (n : Int) : Option OutRow :=
  match lookupCol r "Full Name", lookupCol r "Email", lookupCol r "Street Address",
        lookupCol r "Mobile Number", lookupCol r "Postal Code" with
  | some fnc, some _, some stc, some mbc, some pcc =>
    some
      { refNo := ref_text n
        fullName := pyStrip (pdStr fnc)
        deliveryAddress := buildDeliveryAddress (pyStrip (pdStr stc)) (landmarkOf r)
        pincode := pyStrip (pdStr pcc)
        mobile := pyStrip (pdStr mbc) }
  | _, _, _, _, _ => none

/-- Whether a row has all five columns read with row[...] in the loop body
(Full Name, Email, Street Address, Mobile Number, Postal Code). -/
def rowOk (r : Row) : Bool :=
  (lookupCol r "Full Name").isSome && (lookupCol r "Email").isSome &&
    (lookupCol r "Street Address").isSome && (lookupCol r "Mobile Number").isSome &&
    (lookupCol r "Postal Code").isSome

/-- One iteration of the row loop, generate_bluedart.py:71-143: the counter
is incremented first (line 73); a row whose transformation raises is skipped
while the incremented counter is kept. -/
def stepRow (st : Int × List OutRow) (r : Row) : Int × List OutRow :=
  let c := st.1 + 1
  match transformRow r c with
  | some o => (c, st.2 ++ [o])
  | none => (c, st.2)

/-- The whole row loop starting from counter value c. -/
def runRows (c : Int) (rows : List Row) : Int × List OutRow :=
  rows.foldl stepRow (c, [])

/-- The column list of the output DataFrame, generate_bluedart.py:146-179. -/
def outColumns : List Str :=
  [ "Reference No".data, "Billing Area".data, "Billing Customer Code".data,
    "Pickup Date".data, "Pickup Time".data, "Shipper Name".data,
    "Pickup address".data, "Pickup pincode".data, "Company Name".data,
    "Delivery address".data, "Delivery Pincode".data, "Product Code".data,
    "Product Type".data, "Pack Type".data, "Piece Count".data,
    "Actual Weight".data, "Declared Value".data, "Register Pickup".data,
    "Length".data, "Breadth".data, "Height".data, "To Pay Customer".data,
    "Sender".data, "Sender mobile".data, "Receiver Telephone".data,
    "Receiver mobile".data, "Receiver Name".data, "Invoice No".data,
    "Special Instruction".data, "Commodity Detail 1".data,
    "Commodity Detail 2".data, "Commodity Detail 3".data ]

/-- The cell values of one output row in the column order above, with the
constants of generate_bluedart.py:28-39 inlined. -/
def outRowCells (pickupDate : Str) (o : OutRow) : List Str :=
  [ o.refNo, "BLR".data, "204455".data, pickupDate, "1800".data,
    "Logogear Solution LLP".data, "Mico Layout Begur road".data, "560068".data,
    o.fullName, o.deliveryAddress, o.pincode, [], [], "X".data, "1".data,
    [], [], "TRUE".data, [], [], [], [], "Logogear".data, "9035636626".data,
    o.mobile, o.mobile, o.fullName, o.refNo, [], [], [], [] ]

/-- Outcome of one manifest run: the success flag and count of the returned
dict, the rows of cells written to the output CSV (header first; empty when
the run failed and no artifact was produced), and the content of
ref_counter.txt after the run (unchanged on failure). -/
structure BDRun where
  success : Bool
  count : Nat
  lines : List (List Str)
  counterAfter : Option Str
  deriving Repr

/-- generate_bluedart_file, generate_bluedart.py:14-226, for an input that
parsed into the given rows and a counter file with the given content (none
when absent).  A table with zero data rows raises at line 49, giving the
failure dict of lines 217-226 with nothing written; otherwise the loop runs,
the output CSV is written, and the final counter is persisted (lines
203-205). -/
def generate_bluedart_file (pickupDate : Str) (rows : List Row)
    (counterContent : Option Str) : BDRun :=
  if rows.isEmpty then
    { success := false, count := 0, lines := [], counterAfter := counterContent }
  else
    let c0 := load_ref_counter counterContent
    let res := runRows c0 rows
    { success := true
      count := res.2.length
      lines := outColumns :: res.2.map (outRowCells pickupDate)
      counterAfter := some (intRepr res.1) }

/-- The Reference No cells of the data rows of a manifest run, in order. -/
def manifestRefs (b : BDRun) : List Str :=
  (b.lines.drop 1).map (fun l => l.headD [])

/-! ## generate_dc.py: the document pipeline -/

/-- first_free_cell, generate_dc.py:17-24: scan the row rightwards from the
starting column until a cell that is not part of a merged region is found.
The merged cells of the row are the (finitely many) column indices in
merged; termination holds because each step strictly shrinks the set of
merged columns at or beyond the cursor. -/
def first_free_cell (merged : List Nat) (col : Nat) : Nat :=
  if h : col ∈ merged then first_free_cell merged (col + 1) else col
termination_by (merged.filter (fun x => decide (col ≤ x))).length
decreasing_by
  have hle : ∀ (l : List Nat) (p q : Nat → Bool), (∀ a, p a = true → q a = true) →
      (l.filter p).length ≤ (l.filter q).length := by
    intro l p q hpq
    induction l with
    | nil => simp
    | cons a t ih =>
      simp only [List.filter_cons]
      by_cases hp : p a = true
      · rw [if_pos hp, if_pos (hpq a hp)]
        simp only [List.length_cons]
        omega
      · rw [if_neg hp]
        split
        · simp only [List.length_cons]
          omega
        · exact ih
  have hlt : ∀ (l : List Nat) (s : Nat), s ∈ l →
      (l.filter (fun x => decide (s + 1 ≤ x))).length <
        (l.filter (fun x => decide (s ≤ x))).length := by
    intro l s hs
    induction l with
    | nil => cases hs
    | cons a t ih =>
      simp only [List.filter_cons]
      rcases List.mem_cons.mp hs with rfl | ht
      · rw [if_neg (by simp), if_pos (by simp)]
        simp only [List.length_cons]
        have := hle t (fun x => decide (s + 1 ≤ x))
          (fun x => decide (s ≤ x)) (by intro x hx; simp at hx ⊢; omega)
        omega
      · have h2 := ih ht
        by_cases hb : s + 1 ≤ a
        · rw [if_pos (by simpa using hb), if_pos (by simpa using (by omega : s ≤ a))]
          simp only [List.length_cons]
          omega
        · by_cases hc : s ≤ a
          · rw [if_neg (by simpa using hb), if_pos (by simpa using hc)]
            simp only [List.length_cons]
            omega
          · rw [if_neg (by simpa using hb), if_neg (by simpa using hc)]
            omega
  exact hlt merged col (by assumption)

/-- safe_name, generate_dc.py:104-113: replace each reserved character by an
underscore, then keep the first 25 characters. -/
def safe_name (s : Str) : Str :=
  (replaceChar '"' '_' (replaceChar '>' '_' (replaceChar '<' '_'
    (replaceChar '|' '_' (replaceChar ':' '_' (replaceChar '*' '_'
      (replaceChar '?' '_' (replaceChar '\\' '_' (replaceChar '/' '_'
        (replaceChar ' ' '_' s)))))))))).take 25

/-- Output filename of one document, generate_dc.py:115. -/
def dcFileName (fullName dateStr : Str) : Str :=
  "DC_".data ++ safe_name fullName ++ "_".data ++ dateStr ++ ".xlsx".data

/-- Outcome of one document run (the dict of generate_dc.py:140-145). -/
structure DCRun where
  success : Bool
  count : Nat
  files : List Str
  deriving Repr

/-- generate_dc_files, generate_dc.py:26-155, for an input that parsed into
the given rows: each row with an empty extracted full name or city is
skipped (lines 69-72); every other row produces one document named by
dcFileName (lines 104-127).  There is no empty-table check, so zero rows
simply yield zero files with success still true. -/
def generate_dc_files (dateStr : Str) (rows : List Row) : DCRun :=
  let files := rows.filterMap (fun r =>
    let fn := getOpt r "Full Name" []
    let city := getOpt r "City" []
    if fn.isEmpty || city.isEmpty then none
    else some (dcFileName fn dateStr))
  { success := true, count := files.length, files := files }

/-! ## Derived definitions and concrete sample inputs used by the claims -/

/-- The relation between adjacent output characters: never two spaces. -/
def spacedOk (a b : Char) : Prop := ¬(a = ' ' ∧ b = ' ')

/-- The whitespace-normalized street address: strip, replace newline, CR and
tab by spaces, and collapse whitespace runs (the landmark-absent path of
generate_bluedart.py:86-94). -/
def normalizedStreet (s : Str) : Str :=
  joinSp (pySplit (replaceChar '\t' ' ' (replaceChar '\r' ' ' (replaceChar '\n' ' ' s))))

/-- Closed form of the emitted rows: each input row is offered the reference
number (start + its 1-based position), independently of how many earlier
rows succeeded. -/
def refsFrom (c : Int) : List Row → List OutRow
  | [] => []
  | r :: rs =>
    match transformRow r (c + 1) with
    | some o => o :: refsFrom (c + 1) rs
    | none => refsFrom (c + 1) rs

/-- The reserved filesystem characters sanitized away at
generate_dc.py:104-113. -/
def reservedChars : List Char :=
  [' ', '/', '\\', '?', '*', ':', '|', '<', '>', '"']

/-- A concrete valid manifest row (all five required columns present). -/
def rowGood : Row :=
  [ ("Full Name", "Ann Roe".data), ("Email", "a@x.com".data),
    ("Street Address", "5 Q St".data), ("Mobile Number", "9999999999".data),
    ("Postal Code", "560001".data) ]

/-- A manifest row whose required columns are all absent: its transformation
raises and the row is skipped. -/
def rowNoName : Row := [("Email", "e@x.com".data)]

/-- A row whose Landmark cell is the mixed-case text that the loader does
not recognise as an NA marker. -/
def rowC1 : Row :=
  [ ("Full Name", "A".data), ("Email", "e".data), ("Street Address", "X".data),
    ("Mobile Number", "1".data), ("Postal Code", "2".data),
    ("Landmark", "N/a".data) ]

/-- A row whose Landmark cell is the exact text N/A (a pandas NA marker). -/
def rowC1w : Row :=
  [ ("Full Name", "A".data), ("Email", "e".data),
    ("Street Address", "A  B\n".data), ("Mobile Number", "1".data),
    ("Postal Code", "2".data), ("Landmark", "N/A".data) ]

/-- A row whose street address holds embedded newlines, tabs and runs of
spaces. -/
def rowC6 : Row :=
  [ ("Full Name", "A".data), ("Email", "e".data),
    ("Street Address", "A\nB\tC  D".data), ("Mobile Number", "1".data),
    ("Postal Code", "2".data) ]

/-- The manifest row produced from rowC6 with reference number 1. -/
def outC6 : OutRow :=
  { refNo := ref_text 1, fullName := "A".data,
    deliveryAddress := "A B C D".data, pincode := "2".data, mobile := "1".data }

/-- A row whose required cells are present as columns but hold no value
(empty cells, parsed as NaN), with no Landmark column. -/
def rowC10 : Row :=
  [ ("Full Name", []), ("Email", "e".data), ("Street Address", []),
    ("Mobile Number", []), ("Postal Code", []) ]

/-- The manifest row produced from rowC10 with reference number 1: every
missing value shows as the literal text nan. -/
def outC10 : OutRow :=
  { refNo := ref_text 1, fullName := "nan".data,
    deliveryAddress := "nan".data, pincode := "nan".data, mobile := "nan".data }

/-- A document row missing the Full Name column. -/
def rowDCbad : Row := [("City", "Pune".data)]

/-- A document row with both essential fields. -/
def rowDCgood : Row := [("Full Name", "Bo".data), ("City", "Pune".data)]

/-! ## Decimal rendering and parsing lemmas -/

/-- The fuel of natDigitsF does not matter once it exceeds the number. -/
theorem natDigitsF_congr : ∀ f1 f2 n, n < f1 → n < f2 →
    natDigitsF f1 n = natDigitsF f2 n := by
  intro f1
  induction f1 with
  | zero => intro f2 n h1; omega
  | succ g ih =>
    intro f2 n h1 h2
    cases f2 with
    | zero => omega
    | succ h =>
      simp only [natDigitsF]
      by_cases hn : n < 10
      · rw [if_pos hn, if_pos hn]
      · rw [if_neg hn, if_neg hn]
        have hd : n / 10 < n := Nat.div_lt_self (by omega) (by omega)
        rw [ih h (n / 10) (by omega) (by omega)]

/-- One-step unfolding of natDigits. -/
theorem natDigits_unfold (n : Nat) :
    natDigits n = if n < 10 then [Char.ofNat (48 + n)]
      else natDigits (n / 10) ++ [Char.ofNat (48 + n % 10)] := by
  unfold natDigits
  conv_lhs => rw [natDigitsF]
  by_cases hn : n < 10
  · rw [if_pos hn, if_pos hn]
  · rw [if_neg hn, if_neg hn]
    have hd : n / 10 < n := Nat.div_lt_self (by omega) (by omega)
    rw [natDigitsF_congr n (n / 10 + 1) (n / 10) (by omega) (by omega)]

/-- A digit value below 10 maps to the expected ASCII code. -/
theorem toNat_digitChar (d : Nat) (h : d < 10) :
    (Char.ofNat (48 + d)).toNat = 48 + d := by
  interval_cases d <;> decide

theorem natDigits_ne_nil (n : Nat) : natDigits n ≠ [] := by
  rw [natDigits_unfold]
  split <;> simp

/-- Every character of natDigits is an ASCII decimal digit. -/
theorem natDigits_chars (n : Nat) : ∀ c ∈ natDigits n, 48 ≤ c.toNat ∧ c.toNat ≤ 57 := by
  rw [natDigits_unfold]
  split
  · rename_i h
    intro c hc
    simp only [List.mem_singleton] at hc
    subst hc
    rw [toNat_digitChar n h]
    omega
  · rename_i h
    intro c hc
    rcases List.mem_append.mp hc with h1 | h2
    · exact natDigits_chars (n / 10) c h1
    · simp only [List.mem_singleton] at h2
      subst h2
      rw [toNat_digitChar (n % 10) (Nat.mod_lt _ (by omega))]
      omega
termination_by n
decreasing_by
  exact Nat.div_lt_self (by omega) (by omega)

theorem natFromDigits_append_digit (l : Str) (c : Char) :
    natFromDigits (l ++ [c]) = natFromDigits l * 10 + (c.toNat - 48) := by
  simp [natFromDigits, List.foldl_append]

/-- Parsing the rendered digits of n recovers n. -/
theorem natFromDigits_natDigits (n : Nat) : natFromDigits (natDigits n) = n := by
  rw [natDigits_unfold]
  split
  · rename_i h
    simp only [natFromDigits, List.foldl_cons, List.foldl_nil]
    rw [toNat_digitChar n h]
    omega
  · rename_i h
    rw [natFromDigits_append_digit]
    rw [natFromDigits_natDigits (n / 10)]
    rw [toNat_digitChar (n % 10) (Nat.mod_lt _ (by omega))]
    omega
termination_by n
decreasing_by
  exact Nat.div_lt_self (by omega) (by omega)

/-- Leading zeros do not change the parsed value. -/
theorem natFromDigits_replicate_zero (k : Nat) (l : Str) :
    natFromDigits (List.replicate k '0' ++ l) = natFromDigits l := by
  induction k with
  | zero => simp
  | succ m ih =>
    simp only [List.replicate_succ, List.cons_append, natFromDigits, List.foldl_cons]
    have h0 : (0 : Nat) * 10 + ('0'.toNat - 48) = 0 := by decide
    rw [h0]
    exact ih

theorem natFromDigits_zeroPad (k : Nat) (l : Str) :
    natFromDigits (zeroPad k l) = natFromDigits l :=
  natFromDigits_replicate_zero (k - l.length) l

/-- The head of a zero-padded digit string is a zero or a digit; in
particular it is never the minus sign. -/
theorem head_zeroPad_ne_dash (k : Nat) (l : Str) (hne : l ≠ [])
    (hd : ∀ c ∈ l, 48 ≤ c.toNat) :
    ∀ x, (zeroPad k l).head? = some x → x ≠ '-' := by
  intro x hx
  unfold zeroPad at hx
  cases hrep : List.replicate (k - l.length) '0' with
  | nil =>
    rw [hrep] at hx
    cases l with
    | nil => exact absurd rfl hne
    | cons a t =>
      simp only [List.nil_append, List.head?_cons, Option.some.injEq] at hx
      subst hx
      have := hd a (List.mem_cons_self a t)
      intro hdash
      subst hdash
      revert this
      decide
  | cons a rest =>
    rw [hrep] at hx
    have ha : a = '0' := by
      have : a ∈ List.replicate (k - l.length) '0' := by
        rw [hrep]; exact List.mem_cons_self a rest
      exact List.eq_of_mem_replicate this
    simp only [List.cons_append, List.head?_cons, Option.some.injEq] at hx
    subst hx
    subst ha
    decide

/-- f-string zero-padding to width 3 is injective on the integers. -/
theorem pad3_inj (m n : Int) (h : pad3 m = pad3 n) : m = n := by
  unfold pad3 at h
  split at h <;> split at h
  · rename_i hm hn
    have ht : zeroPad 2 (natDigits m.natAbs) = zeroPad 2 (natDigits n.natAbs) :=
      List.cons_injective h  -- actually tail extraction
    have hv := congrArg natFromDigits ht
    rw [natFromDigits_zeroPad, natFromDigits_zeroPad,
      natFromDigits_natDigits, natFromDigits_natDigits] at hv
    omega
  · rename_i hm hn
    have hh := congrArg List.head? h
    simp only [List.head?_cons] at hh
    exact absurd rfl
      (head_zeroPad_ne_dash 3 (natDigits n.natAbs) (natDigits_ne_nil _)
        (fun c hc => (natDigits_chars _ c hc).1) '-' hh.symm)
  · rename_i hm hn
    have hh := congrArg List.head? h
    simp only [List.head?_cons] at hh
    exact absurd rfl
      (head_zeroPad_ne_dash 3 (natDigits m.natAbs) (natDigits_ne_nil _)
        (fun c hc => (natDigits_chars _ c hc).1) '-' hh)
  · rename_i hm hn
    have hv := congrArg natFromDigits h
    rw [natFromDigits_zeroPad, natFromDigits_zeroPad,
      natFromDigits_natDigits, natFromDigits_natDigits] at hv
    omega

/-- The reference text determines the underlying counter value. -/
theorem ref_text_inj (m n : Int) (h : ref_text m = ref_text n) : m = n := by
  unfold ref_text at h
  exact pad3_inj m n (List.append_cancel_left h)

theorem dropWhile_eq_self_of_none {p : Char → Bool} (l : Str)
    (h : ∀ c ∈ l, p c = false) : l.dropWhile p = l := by
  cases l with
  | nil => rfl
  | cons a t =>
    rw [List.dropWhile_cons, if_neg]
    simp [h a (List.mem_cons_self a t)]

/-- Stripping a string with no whitespace characters is the identity. -/
theorem pyStrip_eq_self (s : Str) (h : ∀ c ∈ s, isPyWs c = false) :
    pyStrip s = s := by
  unfold pyStrip
  rw [dropWhile_eq_self_of_none s h]
  rw [dropWhile_eq_self_of_none s.reverse (fun c hc => h c (List.mem_reverse.mp hc))]
  exact List.reverse_reverse s

/-- An ASCII character with a code in the digit range is not whitespace. -/
theorem not_ws_of_digit_range (c : Char) (h1 : 48 ≤ c.toNat) (h2 : c.toNat ≤ 57) :
    isPyWs c = false := by
  simp only [isPyWs, Bool.or_eq_false_iff, decide_eq_false_iff_not]
  refine ⟨⟨⟨⟨⟨?_, ?_⟩, ?_⟩, ?_⟩, ?_⟩, ?_⟩ <;>
    (rintro rfl; revert h1 h2; decide)

/-- No character of the rendered integer is whitespace. -/
theorem intRepr_chars (n : Int) : ∀ c ∈ intRepr n, isPyWs c = false := by
  unfold intRepr
  split
  · intro c hc
    rcases List.mem_cons.mp hc with rfl | h2
    · decide
    · have := natDigits_chars n.natAbs c h2
      exact not_ws_of_digit_range c this.1 this.2
  · intro c hc
    have := natDigits_chars n.natAbs c hc
    exact not_ws_of_digit_range c this.1 this.2

/-- pyInt? on a non-empty pure digit string. -/
theorem pyInt?_digits (l : Str) (hne : l ≠ [])
    (hd : ∀ c ∈ l, 48 ≤ c.toNat ∧ c.toNat ≤ 57) :
    pyInt? l = some ((natFromDigits l : Nat) : Int) := by
  have hstrip : pyStrip l = l :=
    pyStrip_eq_self l (fun c hc => not_ws_of_digit_range c (hd c hc).1 (hd c hc).2)
  unfold pyInt?
  rw [hstrip]
  cases l with
  | nil => exact absurd rfl hne
  | cons c cs =>
    have hcr := hd c (List.mem_cons_self c cs)
    have hc1 : ¬(c = '-') := by
      rintro rfl; revert hcr; decide
    have hc2 : ¬(c = '+') := by
      rintro rfl; revert hcr; decide
    simp only [hc1, hc2, if_false, reduceIte]
    rw [if_pos]
    simp only [List.all_eq_true]
    intro x hx
    have := hd x hx
    simp only [isDigitCh, Bool.and_eq_true, decide_eq_true_eq]
    omega

/-- pyInt? on a minus sign followed by digits. -/
theorem pyInt?_dash_digits (l : Str) (hne : l ≠ [])
    (hd : ∀ c ∈ l, 48 ≤ c.toNat ∧ c.toNat ≤ 57) :
    pyInt? ('-' :: l) = some (-((natFromDigits l : Nat) : Int)) := by
  have hstrip : pyStrip ('-' :: l) = '-' :: l := by
    apply pyStrip_eq_self
    intro c hc
    rcases List.mem_cons.mp hc with rfl | h2
    · decide
    · exact not_ws_of_digit_range c (hd c h2).1 (hd c h2).2
  unfold pyInt?
  rw [hstrip]
  simp only [reduceIte]
  have hcond : (!l.isEmpty && l.all isDigitCh) = true := by
    simp only [Bool.and_eq_true, Bool.not_eq_true', List.all_eq_true]
    constructor
    · simp [List.isEmpty_iff, hne]
    · intro x hx
      have := hd x hx
      simp only [isDigitCh, Bool.and_eq_true, decide_eq_true_eq]
      omega
  rw [if_pos hcond]

/-- Reading back the persisted counter recovers its exact value
(generate_bluedart.py:55-62 against the write at lines 203-205). -/
theorem load_ref_counter_roundtrip (n : Int) :
    load_ref_counter (some (intRepr n)) = n := by
  simp only [load_ref_counter]
  rw [pyStrip_eq_self _ (intRepr_chars n)]
  unfold intRepr
  split
  · rename_i hn
    rw [pyInt?_dash_digits _ (natDigits_ne_nil _) (natDigits_chars _)]
    rw [natFromDigits_natDigits]
    simp only [Option.getD_some]
    omega
  · rename_i hn
    rw [pyInt?_digits _ (natDigits_ne_nil _) (natDigits_chars _)]
    rw [natFromDigits_natDigits]
    simp only [Option.getD_some]
    omega

/-! ## Whitespace normalization lemmas -/

/-- Every chunk produced by the split worker is non-empty and free of
whitespace characters. -/
theorem splitAux_chunks : ∀ (s acc : Str), (∀ c ∈ acc, isPyWs c = false) →
    ∀ t ∈ splitAux s acc, t ≠ [] ∧ ∀ c ∈ t, isPyWs c = false := by
  intro s
  induction s with
  | nil =>
    intro acc hacc t ht
    simp only [splitAux] at ht
    by_cases h0 : acc.isEmpty
    · rw [if_pos h0] at ht
      cases ht
    · rw [if_neg h0] at ht
      simp only [List.mem_singleton] at ht
      subst ht
      refine ⟨by simpa [List.isEmpty_iff] using h0, ?_⟩
      intro c hc
      exact hacc c (List.mem_reverse.mp hc)
  | cons c cs ih =>
    intro acc hacc t ht
    simp only [splitAux] at ht
    by_cases hws : isPyWs c = true
    · rw [if_pos hws] at ht
      by_cases h0 : acc.isEmpty
      · rw [if_pos h0] at ht
        exact ih [] (by simp) t ht
      · rw [if_neg h0] at ht
        rcases List.mem_cons.mp ht with rfl | ht2
        · refine ⟨by simpa [List.isEmpty_iff] using h0, ?_⟩
          intro x hx
          exact hacc x (List.mem_reverse.mp hx)
        · exact ih [] (by simp) t ht2
    · rw [if_neg hws] at ht
      refine ih (c :: acc) ?_ t ht
      intro x hx
      rcases List.mem_cons.mp hx with rfl | h2
      · simpa using hws
      · exact hacc x h2

/-- Chunks of Python str.split() are non-empty and whitespace-free. -/
theorem pySplit_chunks (s : Str) :
    ∀ t ∈ pySplit s, t ≠ [] ∧ ∀ c ∈ t, isPyWs c = false :=
  splitAux_chunks s [] (by simp)

theorem chain'_of_no_space : ∀ t : Str, (∀ a ∈ t, a ≠ ' ') →
    List.Chain' spacedOk t
  | [], _ => List.chain'_nil
  | [_], _ => List.chain'_singleton _
  | a :: b :: ts, h => by
    rw [List.chain'_cons]
    refine ⟨?_, chain'_of_no_space (b :: ts) ?_⟩
    · rintro ⟨ha, _⟩
      exact h a (List.mem_cons_self a _) ha
    · intro x hx
      exact h x (List.mem_cons_of_mem a hx)

theorem mem_of_head?_eq (l : Str) (x : Char) (h : l.head? = some x) : x ∈ l := by
  cases l with
  | nil => cases h
  | cons a t =>
    simp only [List.head?_cons, Option.some.injEq] at h
    subst h
    exact List.mem_cons_self a t

theorem mem_of_getLast?_eq (l : Str) (x : Char) (h : l.getLast? = some x) : x ∈ l := by
  have : x ∈ l.getLast?.toList := by rw [h]; exact List.mem_singleton.mpr rfl
  exact List.mem_of_mem_getLast? (by rw [h]; rfl)

/-- Joining non-empty whitespace-free chunks with single spaces yields a
string whose only whitespace characters are single spaces, with no two
consecutive spaces and no leading space. -/
theorem joinSp_clean : ∀ l : List Str,
    (∀ t ∈ l, t ≠ [] ∧ ∀ c ∈ t, isPyWs c = false) →
    (∀ c ∈ joinSp l, isPyWs c = true → c = ' ') ∧
      List.Chain' spacedOk (joinSp l) ∧
      ∀ x, (joinSp l).head? = some x → x ≠ ' '
  | [], _ => by
    refine ⟨by simp [joinSp], by simp [joinSp], ?_⟩
    intro x hx
    simp [joinSp] at hx
  | [t], h => by
    have ht := h t (List.mem_singleton.mpr rfl)
    refine ⟨?_, ?_, ?_⟩
    · intro c hc hws
      rw [ht.2 c hc] at hws
      cases hws
    · refine chain'_of_no_space t ?_
      intro a ha hsp
      subst hsp
      have := ht.2 _ ha
      revert this
      decide
    · intro x hx hsp
      subst hsp
      have := ht.2 _ (mem_of_head?_eq t _ hx)
      revert this
      decide
  | t :: u :: ts, h => by
    have ht := h t (List.mem_cons_self t _)
    have hrest := joinSp_clean (u :: ts) (fun v hv => h v (List.mem_cons_of_mem t hv))
    have hju : joinSp (t :: u :: ts) = t ++ ' ' :: joinSp (u :: ts) := rfl
    have htne : ∀ a ∈ t, a ≠ ' ' := by
      intro a ha hsp
      subst hsp
      have := ht.2 _ ha
      revert this
      decide
    refine ⟨?_, ?_, ?_⟩
    · intro c hc hws
      rw [hju] at hc
      rcases List.mem_append.mp hc with h1 | h2
      · rw [ht.2 c h1] at hws
        cases hws
      · rcases List.mem_cons.mp h2 with rfl | h3
        · rfl
        · exact hrest.1 c h3 hws
    · rw [hju, List.chain'_append]
      refine ⟨chain'_of_no_space t htne, ?_, ?_⟩
      · rw [List.chain'_cons']
        refine ⟨?_, hrest.2.1⟩
        intro y hy
        intro hcon
        exact hrest.2.2 y hy hcon.2
      · intro x hx y hy
        intro hcon
        exact htne x (mem_of_getLast?_eq t x hx) hcon.1
    · intro x hx
      rw [hju] at hx
      cases tc : t with
      | nil => exact absurd tc ht.1
      | cons a t2 =>
        rw [tc] at hx
        simp only [List.cons_append, List.head?_cons, Option.some.injEq] at hx
        subst hx
        exact htne a (by rw [tc]; exact List.mem_cons_self a t2)

/-- When the landmark is cleared, the delivery address is exactly the
whitespace-normalized street. -/
theorem buildDeliveryAddress_no_landmark (s l : Str)
    (h : asciiLower l = "nan".data ∨ l = []) :
    buildDeliveryAddress s l = normalizedStreet s := by
  unfold buildDeliveryAddress normalizedStreet
  rw [if_pos h]
  rfl

/-- The delivery address is always free of newline, CR and tab and never
contains two consecutive spaces. -/
theorem buildDeliveryAddress_clean (s l : Str) :
    (∀ c ∈ buildDeliveryAddress s l, c ≠ '\n' ∧ c ≠ '\r' ∧ c ≠ '\t') ∧
      List.Chain' spacedOk (buildDeliveryAddress s l) := by
  have hform : ∃ a, buildDeliveryAddress s l = joinSp (pySplit a) := by
    unfold buildDeliveryAddress
    exact ⟨_, rfl⟩
  rcases hform with ⟨a, ha⟩
  rw [ha]
  have hclean := joinSp_clean (pySplit a) (pySplit_chunks a)
  refine ⟨?_, hclean.2.1⟩
  intro c hc
  refine ⟨?_, ?_, ?_⟩ <;>
    (rintro rfl; have := hclean.1 _ hc (by decide); cases this)

/-! ## Row-loop lemmas for the manifest pipeline -/

/-- A produced output row carries the reference text of the number it was
built with. -/
theorem transformRow_refNo (r : Row) (n : Int) (o : OutRow)
    (h : transformRow r n = some o) : o.refNo = ref_text n := by
  unfold transformRow at h
  repeat' split at h
  · rw [Option.some.injEq] at h
    subst h
    rfl
  · cases h

/-- Success of the row transformation does not depend on the offered
reference number. -/
theorem transformRow_isSome (r : Row) (n : Int) :
    (transformRow r n).isSome = rowOk r := by
  unfold transformRow rowOk
  cases h1 : lookupCol r "Full Name" <;> cases h2 : lookupCol r "Email" <;>
    cases h3 : lookupCol r "Street Address" <;>
      cases h4 : lookupCol r "Mobile Number" <;>
        cases h5 : lookupCol r "Postal Code" <;> simp

/-- The counter after the loop equals the start plus the number of input
rows, processed or skipped (generate_bluedart.py:73 runs on every row). -/
theorem foldl_stepRow_fst : ∀ (rows : List Row) (c : Int) (acc : List OutRow),
    (List.foldl stepRow (c, acc) rows).1 = c + rows.length := by
  intro rows
  induction rows with
  | nil => intro c acc; simp
  | cons r rs ih =>
    intro c acc
    simp only [List.foldl_cons, List.length_cons]
    cases htr : transformRow r (c + 1) with
    | none =>
      simp only [stepRow, htr]
      rw [ih]
      push_cast
      ring
    | some o =>
      simp only [stepRow, htr]
      rw [ih]
      push_cast
      ring

/-- Accumulator lemma for the loop fold. -/
theorem foldl_stepRow_acc : ∀ (rows : List Row) (c : Int) (acc : List OutRow),
    (List.foldl stepRow (c, acc) rows).2 = acc ++ (List.foldl stepRow (c, []) rows).2 := by
  intro rows
  induction rows with
  | nil => intro c acc; simp
  | cons r rs ih =>
    intro c acc
    simp only [List.foldl_cons]
    cases htr : transformRow r (c + 1) with
    | none =>
      simp only [stepRow, htr]
      exact ih (c + 1) acc
    | some o =>
      simp only [stepRow, htr]
      rw [ih (c + 1) (acc ++ [o]), ih (c + 1) ([] ++ [o])]
      simp

/-- The loop emits exactly the closed-form row list. -/
theorem runRows_snd (c : Int) (rows : List Row) :
    (runRows c rows).2 = refsFrom c rows := by
  induction rows generalizing c with
  | nil => rfl
  | cons r rs ih =>
    unfold runRows at ih ⊢
    simp only [List.foldl_cons, refsFrom]
    cases htr : transformRow r (c + 1) with
    | none =>
      simp only [stepRow, htr]
      exact ih (c + 1)
    | some o =>
      simp only [stepRow, htr]
      rw [foldl_stepRow_acc rs (c + 1) ([] ++ [o])]
      rw [← ih (c + 1)]
      simp [runRows]

theorem runRows_fst (c : Int) (rows : List Row) :
    (runRows c rows).1 = c + rows.length :=
  foldl_stepRow_fst rows c []

/-- Every emitted row comes from some input row at its allocated number. -/
theorem refsFrom_mem : ∀ (rows : List Row) (c : Int) (o : OutRow),
    o ∈ refsFrom c rows →
      ∃ j, ∃ h : j < rows.length,
        transformRow (rows.get ⟨j, h⟩) (c + j + 1) = some o := by
  intro rows
  induction rows with
  | nil => intro c o h; cases h
  | cons r rs ih =>
    intro c o hmem
    simp only [refsFrom] at hmem
    cases htr : transformRow r (c + 1) with
    | some o0 =>
      rw [htr] at hmem
      rcases List.mem_cons.mp hmem with rfl | h2
      · refine ⟨0, by simp, ?_⟩
        simpa using htr
      · rcases ih (c + 1) o h2 with ⟨j, hj, hjt⟩
        refine ⟨j + 1, by simpa using hj, ?_⟩
        have harg : c + (((j + 1) : Nat) : Int) + 1 = (c + 1) + (j : Int) + 1 := by
          push_cast
          ring
        rw [harg]
        simpa using hjt
    | none =>
      rw [htr] at hmem
      rcases ih (c + 1) o hmem with ⟨j, hj, hjt⟩
      refine ⟨j + 1, by simpa using hj, ?_⟩
      have harg : c + (((j + 1) : Nat) : Int) + 1 = (c + 1) + (j : Int) + 1 := by
        push_cast
        ring
      rw [harg]
      simpa using hjt

/-- With every row valid, the loop emits one row per input row, whose
reference texts are the consecutive texts from start + 1 on. -/
theorem refsFrom_all_ok : ∀ (rows : List Row) (c : Int),
    (∀ r ∈ rows, rowOk r = true) →
    (refsFrom c rows).length = rows.length ∧
      (refsFrom c rows).map (fun o => o.refNo) =
        (List.range rows.length).map (fun i : Nat => ref_text (c + (i : Int) + 1)) := by
  intro rows
  induction rows with
  | nil => intro c _; simp [refsFrom]
  | cons r rs ih =>
    intro c hok
    have hr : rowOk r = true := hok r (List.mem_cons_self r rs)
    have hsome : (transformRow r (c + 1)).isSome = true := by
      rw [transformRow_isSome]; exact hr
    rcases Option.isSome_iff_exists.mp hsome with ⟨o, ho⟩
    have ihr := ih (c + 1) (fun x hx => hok x (List.mem_cons_of_mem r hx))
    simp only [refsFrom, ho, List.length_cons, List.map_cons]
    constructor
    · simp [ihr.1]
    · rw [transformRow_refNo r (c + 1) o ho]
      rw [List.range_succ_eq_map, List.map_cons, List.map_map]
      rw [List.cons_eq_cons]
      refine ⟨by norm_num, ?_⟩
      rw [ihr.2]
      apply List.map_congr_left
      intro i _
      simp only [Function.comp_apply]
      congr 1
      push_cast
      ring

/-! ## first_free_cell and the document pipeline lemmas -/

/-- Filtering with a weaker predicate keeps at least as many elements. -/
theorem length_filter_le_of_imp (l : List Nat) (p q : Nat → Bool)
    (hpq : ∀ a, p a = true → q a = true) :
    (l.filter p).length ≤ (l.filter q).length := by
  induction l with
  | nil => simp
  | cons a t ih =>
    simp only [List.filter_cons]
    by_cases hp : p a = true
    · rw [if_pos hp, if_pos (hpq a hp)]
      simp only [List.length_cons]
      omega
    · rw [if_neg hp]
      split
      · simp only [List.length_cons]
        omega
      · exact ih

/-- If s occurs in l, strictly fewer elements of l are at least s + 1 than
are at least s. -/
theorem length_filter_succ_lt (l : List Nat) (s : Nat) (h : s ∈ l) :
    (l.filter (fun x => decide (s + 1 ≤ x))).length <
      (l.filter (fun x => decide (s ≤ x))).length := by
  induction l with
  | nil => cases h
  | cons a t ih =>
    simp only [List.filter_cons]
    rcases List.mem_cons.mp h with rfl | ht
    · rw [if_neg (by simp), if_pos (by simp)]
      simp only [List.length_cons]
      have := length_filter_le_of_imp t (fun x => decide (s + 1 ≤ x))
        (fun x => decide (s ≤ x)) (by intro x hx; simp at hx ⊢; omega)
      omega
    · have hlt := ih ht
      by_cases hb : s + 1 ≤ a
      · rw [if_pos (by simpa using hb), if_pos (by simpa using (by omega : s ≤ a))]
        simp only [List.length_cons]
        omega
      · by_cases hc : s ≤ a
        · rw [if_neg (by simpa using hb), if_pos (by simpa using hc)]
          simp only [List.length_cons]
          omega
        · rw [if_neg (by simpa using hb), if_neg (by simpa using hc)]
          omega

/-- Full specification of the merged-cell scan: the result is at or after
the start, is not merged, and everything between is merged. -/
theorem first_free_cell_spec (merged : List Nat) (col : Nat) :
    col ≤ first_free_cell merged col ∧
      first_free_cell merged col ∉ merged ∧
        ∀ j, col ≤ j → j < first_free_cell merged col → j ∈ merged := by
  rw [first_free_cell]
  split
  · rename_i h
    have IH := first_free_cell_spec merged (col + 1)
    refine ⟨by omega, IH.2.1, ?_⟩
    intro j hj1 hj2
    by_cases hj : j = col
    · subst hj
      exact h
    · exact IH.2.2 j (by omega) hj2
  · rename_i h
    exact ⟨Nat.le_refl _, h, by omega⟩
termination_by (merged.filter (fun x => decide (col ≤ x))).length
decreasing_by
  exact length_filter_succ_lt merged col (by assumption)

/-- Membership through a single-character replacement. -/
theorem replaceChar_mem {a b : Char} {s : Str} {c : Char}
    (h : c ∈ replaceChar a b s) : c = b ∨ (c ∈ s ∧ c ≠ a) := by
  unfold replaceChar at h
  rcases List.mem_map.mp h with ⟨x, hx, hfx⟩
  by_cases hxa : x = a
  · left
    rw [← hfx, if_pos hxa]
  · right
    rw [← hfx, if_neg hxa]
    exact ⟨hx, hxa⟩

/-- No character of the sanitized name is reserved. -/
theorem safe_name_no_reserved (s : Str) : ∀ c ∈ safe_name s, c ∉ reservedChars := by
  intro c hc
  unfold safe_name at hc
  have hc0 := List.mem_of_mem_take hc
  rcases replaceChar_mem hc0 with rfl | ⟨hc1, hq⟩
  · decide
  rcases replaceChar_mem hc1 with rfl | ⟨hc2, hgt⟩
  · decide
  rcases replaceChar_mem hc2 with rfl | ⟨hc3, hlt⟩
  · decide
  rcases replaceChar_mem hc3 with rfl | ⟨hc4, hbar⟩
  · decide
  rcases replaceChar_mem hc4 with rfl | ⟨hc5, hcol⟩
  · decide
  rcases replaceChar_mem hc5 with rfl | ⟨hc6, hstar⟩
  · decide
  rcases replaceChar_mem hc6 with rfl | ⟨hc7, hques⟩
  · decide
  rcases replaceChar_mem hc7 with rfl | ⟨hc8, hback⟩
  · decide
  rcases replaceChar_mem hc8 with rfl | ⟨hc9, hslash⟩
  · decide
  rcases replaceChar_mem hc9 with rfl | ⟨hc10, hspace⟩
  · decide
  simp only [reservedChars, List.mem_cons, List.not_mem_nil, or_false]
  rintro (rfl | rfl | rfl | rfl | rfl | rfl | rfl | rfl | rfl | rfl)
  · exact hspace rfl
  · exact hslash rfl
  · exact hback rfl
  · exact hques rfl
  · exact hstar rfl
  · exact hcol rfl
  · exact hbar rfl
  · exact hlt rfl
  · exact hgt rfl
  · exact hq rfl

/-- Digit characters are never reserved. -/
theorem digit_not_reserved (c : Char) (h1 : 48 ≤ c.toNat) (h2 : c.toNat ≤ 57) :
    c ∉ reservedChars := by
  simp only [reservedChars, List.mem_cons, List.not_mem_nil, or_false]
  rintro (rfl | rfl | rfl | rfl | rfl | rfl | rfl | rfl | rfl | rfl) <;>
    (revert h1 h2; decide)

/-- A row of the manifest loop is skipped exactly when one of the five
columns read with row[...] is absent from the table. -/
theorem transformRow_none_iff (r : Row) (n : Int) :
    transformRow r n = none ↔
      (lookupCol r "Full Name" = none ∨ lookupCol r "Email" = none ∨
        lookupCol r "Street Address" = none ∨ lookupCol r "Mobile Number" = none ∨
          lookupCol r "Postal Code" = none) := by
  unfold transformRow
  cases h1 : lookupCol r "Full Name" <;> cases h2 : lookupCol r "Email" <;>
    cases h3 : lookupCol r "Street Address" <;>
      cases h4 : lookupCol r "Mobile Number" <;>
        cases h5 : lookupCol r "Postal Code" <;> simp

/-- filterMap of a guarded map is the map over the filtered list. -/
theorem filterMap_guard {α β : Type} (p : α → Bool) (f : α → β) (l : List α) :
    (l.filterMap (fun x => if p x then some (f x) else none)) =
      (l.filter p).map f := by
  induction l with
  | nil => rfl
  | cons a t ih =>
    simp only [List.filterMap_cons, List.filter_cons]
    by_cases hp : p a = true
    · rw [if_pos hp, hp]
      simp [ih]
    · simp only [hp]
      rw [if_neg (by simp [hp])]
      simpa using ih

/-! ## Pipeline-level helper lemmas -/

/-- The value of the row transformation when all five required columns are
present. -/
theorem transformRow_some_eq (r : Row) (n : Int) (fnc emc stc mbc pcc : Str)
    (h1 : lookupCol r "Full Name" = some fnc)
    (h2 : lookupCol r "Email" = some emc)
    (h3 : lookupCol r "Street Address" = some stc)
    (h4 : lookupCol r "Mobile Number" = some mbc)
    (h5 : lookupCol r "Postal Code" = some pcc) :
    transformRow r n = some
      { refNo := ref_text n
        fullName := pyStrip (pdStr fnc)
        deliveryAddress := buildDeliveryAddress (pyStrip (pdStr stc)) (landmarkOf r)
        pincode := pyStrip (pdStr pcc)
        mobile := pyStrip (pdStr mbc) } := by
  unfold transformRow
  rw [h1, h2, h3, h4, h5]

/-- Conversely, a produced row determines the five cells and every field. -/
theorem transformRow_fields (r : Row) (n : Int) (o : OutRow)
    (h : transformRow r n = some o) :
    ∃ fnc emc stc mbc pcc,
      lookupCol r "Full Name" = some fnc ∧ lookupCol r "Email" = some emc ∧
        lookupCol r "Street Address" = some stc ∧
          lookupCol r "Mobile Number" = some mbc ∧
            lookupCol r "Postal Code" = some pcc ∧
              o = { refNo := ref_text n
                    fullName := pyStrip (pdStr fnc)
                    deliveryAddress :=
                      buildDeliveryAddress (pyStrip (pdStr stc)) (landmarkOf r)
                    pincode := pyStrip (pdStr pcc)
                    mobile := pyStrip (pdStr mbc) } := by
  cases h1 : lookupCol r "Full Name" with
  | none => rw [transformRow, h1] at h; cases h
  | some fnc =>
  cases h2 : lookupCol r "Email" with
  | none => rw [transformRow, h1, h2] at h; cases h
  | some emc =>
  cases h3 : lookupCol r "Street Address" with
  | none => rw [transformRow, h1, h2, h3] at h; cases h
  | some stc =>
  cases h4 : lookupCol r "Mobile Number" with
  | none => rw [transformRow, h1, h2, h3, h4] at h; cases h
  | some mbc =>
  cases h5 : lookupCol r "Postal Code" with
  | none => rw [transformRow, h1, h2, h3, h4, h5] at h; cases h
  | some pcc =>
    rw [transformRow_some_eq r n fnc emc stc mbc pcc h1 h2 h3 h4 h5] at h
    rw [Option.some.injEq] at h
    exact ⟨fnc, emc, stc, mbc, pcc, rfl, rfl, rfl, rfl, rfl, h.symm⟩

/-- The run record of a successful (non-empty input) manifest run. -/
theorem generate_bluedart_file_nonempty (pd : Str) (rows : List Row)
    (cc : Option Str) (h : rows.isEmpty = false) :
    generate_bluedart_file pd rows cc =
      { success := true
        count := (runRows (load_ref_counter cc) rows).2.length
        lines := outColumns ::
          (runRows (load_ref_counter cc) rows).2.map (outRowCells pd)
        counterAfter := some (intRepr ((runRows (load_ref_counter cc) rows).1)) } := by
  unfold generate_bluedart_file
  rw [if_neg (by simp [h])]

/-- The Reference No column of a successful run, as emitted row texts. -/
theorem manifestRefs_eq (pd : Str) (rows : List Row) (cc : Option Str)
    (h : rows.isEmpty = false) :
    manifestRefs (generate_bluedart_file pd rows cc) =
      (refsFrom (load_ref_counter cc) rows).map (fun o => o.refNo) := by
  rw [generate_bluedart_file_nonempty pd rows cc h]
  unfold manifestRefs
  simp only [List.drop_succ_cons, List.drop_zero, List.map_map]
  rw [← runRows_snd]
  apply List.map_congr_left
  intro o _
  rfl

/-- Every reference text of a successful run belongs to the block of
numbers following the loaded counter. -/
theorem manifestRefs_mem (pd : Str) (rows : List Row) (cc : Option Str)
    (h : rows.isEmpty = false) (s : Str)
    (hs : s ∈ manifestRefs (generate_bluedart_file pd rows cc)) :
    ∃ j : Nat, j < rows.length ∧
      s = ref_text (load_ref_counter cc + (j : Int) + 1) := by
  rw [manifestRefs_eq pd rows cc h] at hs
  rcases List.mem_map.mp hs with ⟨o, ho, href⟩
  rcases refsFrom_mem rows (load_ref_counter cc) o ho with ⟨j, hj, hjt⟩
  refine ⟨j, hj, ?_⟩
  rw [← href, transformRow_refNo _ _ _ hjt]

/-! ## The claims -/

/-- C1 (amended): for every manifest input row whose extracted landmark is
empty or case-folds to "nan" — which is what the input loader produces for
landmark cells holding "N/A", "n/a" or the empty string — the delivery
address of the produced manifest row equals the whitespace-normalized street
address exactly, with no ", " suffix and no dangling comma.  (Over arbitrary
case variants of "N/A" the original claim fails: a cell "N/a" is not an NA
marker of the loader, survives as text and is appended; see the
counterexample.) -/
theorem C1_landmark_absent_address (r : Row) (n : Int) (sc : Str)
    (hok : rowOk r = true)
    (hst : lookupCol r "Street Address" = some sc)
    (hlm : landmarkOf r = [] ∨ asciiLower (landmarkOf r) = "nan".data) :
    (transformRow r n).map (fun o => o.deliveryAddress) =
      some (normalizedStreet (pyStrip (pdStr sc))) := by
  have hsome : (transformRow r n).isSome = true := by
    rw [transformRow_isSome]
    exact hok
  rcases Option.isSome_iff_exists.mp hsome with ⟨o, ho⟩
  rcases transformRow_fields r n o ho with
    ⟨fnc, emc, stc, mbc, pcc, h1, h2, h3, h4, h5, hoeq⟩
  rw [hst] at h3
  rw [Option.some.injEq] at h3
  subst h3
  rw [ho, hoeq]
  simp only [Option.map_some']
  rw [buildDeliveryAddress_no_landmark _ _ hlm.symm]

/-- C1 as stated is false on the code: the landmark cell "N/a" equals "N/A"
case-insensitively, yet the delivery address built from street "X" is
"X, N/a" and not "X". -/
theorem C1_counterexample :
    asciiLower (landmarkOf rowC1) = "n/a".data ∧
      (transformRow rowC1 1).map (fun o => o.deliveryAddress) =
        some ("X, N/a".data) ∧
      normalizedStreet (pyStrip (pdStr "X".data)) = "X".data ∧
      ("X, N/a".data : Str) ≠ "X".data := by
  refine ⟨by decide, by decide, by decide, by decide⟩

/-- Witness for C1 on a concrete row whose Landmark cell is "N/A". -/
theorem C1_witness :
    (transformRow rowC1w 1).map (fun o => o.deliveryAddress) =
      some (normalizedStreet (pyStrip (pdStr "A  B\n".data))) :=
  C1_landmark_absent_address rowC1w 1 ("A  B\n".data) (by decide) (by decide)
    (by decide)

/-- C2 (amended): on a table with zero data rows the manifest pipeline fails
(success=false, count=0, no output lines, counter file untouched), while the
document pipeline — which performs no emptiness check — reports success=true
with count=0 and produces no files. -/
theorem C2_empty_input (pd d : Str) (cc : Option Str) :
    (generate_bluedart_file pd [] cc).success = false ∧
      (generate_bluedart_file pd [] cc).count = 0 ∧
      (generate_bluedart_file pd [] cc).lines = [] ∧
      (generate_bluedart_file pd [] cc).counterAfter = cc ∧
      (generate_dc_files d []).success = true ∧
      (generate_dc_files d []).count = 0 ∧
      (generate_dc_files d []).files = [] :=
  ⟨rfl, rfl, rfl, rfl, rfl, rfl, rfl⟩

/-- C2 as stated is false on the code: the document pipeline on an empty
table returns success=true (with count 0) instead of failing. -/
theorem C2_counterexample :
    (generate_dc_files "12102026".data []).success = true ∧
      (generate_dc_files "12102026".data []).count = 0 :=
  ⟨rfl, rfl⟩

/-- C3: the reference counter is incremented once per input row before any
field of the row is read, so after the loop it equals start + row count even
when rows were skipped; and the number allocated to a skipped row never
appears among the emitted Reference No texts, leaving a gap. -/
theorem C3_preallocated_counter (c : Int) (rows : List Row) :
    (runRows c rows).1 = c + rows.length ∧
      ∀ i, ∀ h : i < rows.length,
        transformRow (rows.get ⟨i, h⟩) (c + (i : Int) + 1) = none →
          ref_text (c + (i : Int) + 1) ∉
            ((runRows c rows).2.map (fun o => o.refNo)) := by
  refine ⟨runRows_fst c rows, ?_⟩
  intro i hi hnone hmem
  rw [runRows_snd] at hmem
  rcases List.mem_map.mp hmem with ⟨o, homem, horef⟩
  rcases refsFrom_mem rows c o homem with ⟨j, hj, hjt⟩
  rw [transformRow_refNo _ _ _ hjt] at horef
  have hij : c + (j : Int) + 1 = c + (i : Int) + 1 := ref_text_inj _ _ horef
  have hji : j = i := by omega
  subst hji
  rw [hnone] at hjt
  cases hjt

/-- Witness for C3 at a concrete row whose transformation fails. -/
theorem C3_witness :
    (runRows 0 [rowNoName]).1 = 0 + (([rowNoName] : List Row).length : Int) ∧
      ref_text (0 + ((0 : Nat) : Int) + 1) ∉
        ((runRows 0 [rowNoName]).2.map (fun o => o.refNo)) :=
  ⟨(C3_preallocated_counter 0 [rowNoName]).1,
    (C3_preallocated_counter 0 [rowNoName]).2 0 (by decide) (by decide)⟩

/-- C4: for every non-empty batch whose rows are all valid, the manifest
output is one header row plus exactly N data rows, and the Reference No
texts of the data rows are ref_text (prior+1) .. ref_text (prior+N) in
ascending order, where prior is the loaded counter; an absent counter file
loads as 0, and for 0 ≤ k the reference text is "LGS-INV-" followed by the
decimal digits of k zero-padded to width at least 3 (so the first reference
of a fresh counter is "LGS-INV-001"). -/
theorem C4_contiguous_references (pd : Str) (cc : Option Str) (rows : List Row)
    (hne : rows ≠ []) (hok : ∀ r ∈ rows, rowOk r = true) :
    (generate_bluedart_file pd rows cc).success = true ∧
      (generate_bluedart_file pd rows cc).lines.length = rows.length + 1 ∧
      (generate_bluedart_file pd rows cc).lines.head? = some outColumns ∧
      manifestRefs (generate_bluedart_file pd rows cc) =
        (List.range rows.length).map
          (fun i : Nat => ref_text (load_ref_counter cc + (i : Int) + 1)) ∧
      load_ref_counter none = 0 ∧
      ∀ k : Int, 0 ≤ k →
        ref_text k = "LGS-INV-".data ++ zeroPad 3 (natDigits k.toNat) := by
  have hni : rows.isEmpty = false := by
    cases rows
    · exact absurd rfl hne
    · rfl
  have hgen := generate_bluedart_file_nonempty pd rows cc hni
  have hall := refsFrom_all_ok rows (load_ref_counter cc) hok
  refine ⟨by rw [hgen], ?_, by rw [hgen]; rfl, ?_, rfl, ?_⟩
  · rw [hgen]
    simp only [List.length_cons, List.length_map]
    rw [runRows_snd, hall.1]
  · rw [manifestRefs_eq pd rows cc hni]
    exact hall.2
  · intro k hk
    unfold ref_text pad3
    rw [if_neg (by omega)]
    have habs : k.natAbs = k.toNat := by omega
    rw [habs]

/-- Witness for C4: a single valid row with the counter file absent; the
sole reference is the first one of a fresh counter, LGS-INV-001. -/
theorem C4_witness :
    manifestRefs (generate_bluedart_file "12/10/2026".data [rowGood] none) =
      (List.range ([rowGood] : List Row).length).map
        (fun i : Nat => ref_text (load_ref_counter none + (i : Int) + 1)) ∧
      ref_text 1 = "LGS-INV-001".data :=
  ⟨(C4_contiguous_references "12/10/2026".data none [rowGood] (by decide)
      (by decide)).2.2.2.1,
    by decide⟩

/-- C5: two successive successful manifest runs against the same counter
directory yield disjoint reference texts: the first run persists exactly its
final counter value (prior + number of rows), the second run loads that
value back as its starting point, and no Reference No text of the first run
occurs among those of the second. -/
theorem C5_disjoint_reference_ranges (pd1 pd2 : Str) (cc : Option Str)
    (rows1 rows2 : List Row) (h1 : rows1 ≠ []) (h2 : rows2 ≠ []) :
    (generate_bluedart_file pd1 rows1 cc).success = true ∧
      (generate_bluedart_file pd2 rows2
        (generate_bluedart_file pd1 rows1 cc).counterAfter).success = true ∧
      load_ref_counter (generate_bluedart_file pd1 rows1 cc).counterAfter =
        load_ref_counter cc + rows1.length ∧
      ∀ s, s ∈ manifestRefs (generate_bluedart_file pd1 rows1 cc) →
        s ∉ manifestRefs (generate_bluedart_file pd2 rows2
          (generate_bluedart_file pd1 rows1 cc).counterAfter) := by
  have hni1 : rows1.isEmpty = false := by
    cases rows1
    · exact absurd rfl h1
    · rfl
  have hni2 : rows2.isEmpty = false := by
    cases rows2
    · exact absurd rfl h2
    · rfl
  have hgen1 := generate_bluedart_file_nonempty pd1 rows1 cc hni1
  have hload : load_ref_counter
      (generate_bluedart_file pd1 rows1 cc).counterAfter =
        load_ref_counter cc + rows1.length := by
    rw [hgen1]
    dsimp only
    rw [runRows_fst]
    exact load_ref_counter_roundtrip _
  refine ⟨by rw [hgen1], ?_, hload, ?_⟩
  · rw [generate_bluedart_file_nonempty pd2 rows2 _ hni2]
  · intro s hs1 hs2
    rcases manifestRefs_mem pd1 rows1 cc hni1 s hs1 with ⟨j, hj, hsj⟩
    rcases manifestRefs_mem pd2 rows2 _ hni2 s hs2 with ⟨k, hk, hsk⟩
    rw [hload, hsj] at hsk
    have := ref_text_inj _ _ hsk
    omega

/-- Witness for C5: two one-row runs starting from an absent counter file;
the first reference of run one does not reappear in run two. -/
theorem C5_witness :
    load_ref_counter
      (generate_bluedart_file "a".data [rowGood] none).counterAfter =
        load_ref_counter none + (([rowGood] : List Row).length : Int) ∧
      ref_text 1 ∉ manifestRefs (generate_bluedart_file "b".data [rowGood]
        (generate_bluedart_file "a".data [rowGood] none).counterAfter) :=
  ⟨(C5_disjoint_reference_ranges "a".data "b".data none [rowGood] [rowGood]
      (by decide) (by decide)).2.2.1,
    (C5_disjoint_reference_ranges "a".data "b".data none [rowGood] [rowGood]
      (by decide) (by decide)).2.2.2 (ref_text 1) (by decide)⟩

/-- C6: the delivery address of every produced manifest row contains no
newline, carriage-return or tab character and contains no two consecutive
spaces: those characters are replaced by spaces and all whitespace runs are
collapsed to single spaces. -/
theorem C6_address_whitespace (r : Row) (n : Int) (o : OutRow)
    (h : transformRow r n = some o) :
    (∀ c ∈ o.deliveryAddress, c ≠ '\n' ∧ c ≠ '\r' ∧ c ≠ '\t') ∧
      List.Chain' spacedOk o.deliveryAddress := by
  rcases transformRow_fields r n o h with
    ⟨fnc, emc, stc, mbc, pcc, h1, h2, h3, h4, h5, hoeq⟩
  subst hoeq
  exact buildDeliveryAddress_clean _ _

/-- Witness for C6 on a concrete row whose street holds a newline, a tab
and a run of spaces. -/
theorem C6_witness :
    transformRow rowC6 1 = some outC6 ∧
      List.Chain' spacedOk outC6.deliveryAddress :=
  ⟨by decide, (C6_address_whitespace rowC6 1 outC6 (by decide)).2⟩

/-- C7: every document filename is "DC_" ++ sanitized-name ++ "_" ++ date ++
".xlsx" with the sanitized name capped at 25 characters, so for an 8-digit
date stamp the filename never exceeds 3 + 25 + 14 characters and contains
none of the reserved filesystem characters. -/
theorem C7_filename_bounds (fn ds : Str) (hlen : ds.length = 8)
    (hds : ∀ c ∈ ds, 48 ≤ c.toNat ∧ c.toNat ≤ 57) :
    (dcFileName fn ds).length ≤ 3 + 25 + 14 ∧
      ∀ c ∈ dcFileName fn ds, c ∉ reservedChars := by
  constructor
  · unfold dcFileName
    simp only [List.length_append, List.length_cons, List.length_nil]
    have hsafe : (safe_name fn).length ≤ 25 := by
      unfold safe_name
      exact List.length_take_le _ _
    omega
  · intro c hc
    unfold dcFileName at hc
    rcases List.mem_append.mp hc with hc | hx
    · rcases List.mem_append.mp hc with hc | hd
      · rcases List.mem_append.mp hc with hc | hu
        · rcases List.mem_append.mp hc with hdc | hs
          · have h2 : c ∈ ('D' :: 'C' :: '_' :: ([] : Str)) := hdc
            fin_cases h2 <;> decide
          · exact safe_name_no_reserved fn c hs
        · have h2 : c ∈ ('_' :: ([] : Str)) := hu
          fin_cases h2
          decide
      · exact digit_not_reserved c (hds c hd).1 (hds c hd).2
    · have h2 : c ∈ ('.' :: 'x' :: 'l' :: 's' :: 'x' :: ([] : Str)) := hx
      fin_cases h2 <;> decide

/-- Witness for C7 on the spec scenario name, with the reserved characters
replaced and the date stamp appended. -/
theorem C7_witness :
    (dcFileName "A/B? Test".data "12102026".data).length ≤ 3 + 25 + 14 ∧
      dcFileName "A/B? Test".data "12102026".data =
        "DC_A_B__Test_12102026.xlsx".data :=
  ⟨(C7_filename_bounds "A/B? Test".data "12102026".data (by decide)
      (by decide)).1,
    by decide⟩

/-- C8: the document pipeline always reports success; its count equals the
number of files written, which are exactly one per row whose extracted full
name and city are both non-empty; a row with either one empty — including a
row whose Full Name column is absent, which extracts as empty — is skipped
and contributes nothing. -/
theorem C8_skip_policy (d : Str) (rows : List Row) :
    (generate_dc_files d rows).success = true ∧
      (generate_dc_files d rows).count =
        (generate_dc_files d rows).files.length ∧
      (generate_dc_files d rows).files =
        (rows.filter (fun r => !(getOpt r "Full Name" []).isEmpty &&
            !(getOpt r "City" []).isEmpty)).map
          (fun r => dcFileName (getOpt r "Full Name" []) d) ∧
      ∀ r : Row, lookupCol r "Full Name" = none →
        getOpt r "Full Name" [] = [] := by
  refine ⟨rfl, rfl, ?_, ?_⟩
  · unfold generate_dc_files
    dsimp only
    have hfun : (fun r : Row =>
        if (getOpt r "Full Name" []).isEmpty || (getOpt r "City" []).isEmpty
        then none
        else some (dcFileName (getOpt r "Full Name" []) d)) =
        (fun r : Row =>
          if !(getOpt r "Full Name" []).isEmpty && !(getOpt r "City" []).isEmpty
          then some (dcFileName (getOpt r "Full Name" []) d) else none) := by
      funext r
      by_cases hfn : (getOpt r "Full Name" []).isEmpty
      · simp [hfn]
      · by_cases hct : (getOpt r "City" []).isEmpty
        · simp [hfn, hct]
        · simp [hfn, hct]
    rw [hfun]
    exact filterMap_guard _ _ rows
  · intro r hr
    unfold getOpt
    rw [hr]

/-- Witness for C8: a row missing the Full Name column is skipped while the
valid row still produces its document, and the run reports success. -/
theorem C8_witness :
    (generate_dc_files "12102026".data [rowDCbad, rowDCgood]).success = true ∧
      (generate_dc_files "12102026".data [rowDCbad, rowDCgood]).count = 1 ∧
      getOpt rowDCbad "Full Name" [] = [] :=
  ⟨(C8_skip_policy "12102026".data [rowDCbad, rowDCgood]).1,
    by decide,
    (C8_skip_policy "12102026".data [rowDCbad, rowDCgood]).2.2.2 rowDCbad
      (by decide)⟩

/-- C9: for a worksheet row with finitely many merged cells, first_free_cell
terminates and returns the smallest column index at or after the start that
is not part of a merged region; in particular it never returns a merged
cell. -/
theorem C9_first_free_cell (merged : List Nat) (col : Nat) :
    col ≤ first_free_cell merged col ∧
      first_free_cell merged col ∉ merged ∧
        ∀ j, col ≤ j → j < first_free_cell merged col → j ∈ merged :=
  first_free_cell_spec merged col

/-- Witness for C9 on a concrete merged region spanning columns 5 and 6. -/
theorem C9_witness :
    first_free_cell [5, 6] 5 ∉ ([5, 6] : List Nat) ∧ 6 ∈ ([5, 6] : List Nat) :=
  ⟨(C9_first_free_cell [5, 6] 5).2.1,
    (C9_first_free_cell [5, 6] 5).2.2 6 (by omega)
      (by
        rw [first_free_cell, dif_pos (by decide), first_free_cell,
          dif_pos (by decide), first_free_cell, dif_neg (by decide)]
        decide)⟩

/-- C10: a manifest row is skipped exactly when one of the five required
columns is absent from the table (the lookup raises); a column present with
no value is not skipped — the missing value prints as the literal text
"nan" and the emitted manifest row carries that text in the corresponding
field. -/
theorem C10_nan_not_skipped (r : Row) (n : Int) :
    (transformRow r n = none ↔
      (lookupCol r "Full Name" = none ∨ lookupCol r "Email" = none ∨
        lookupCol r "Street Address" = none ∨
          lookupCol r "Mobile Number" = none ∨
            lookupCol r "Postal Code" = none)) ∧
      (∀ cell, lookupCol r "Full Name" = some cell → cell ∈ NA_VALUES →
        ∀ o, transformRow r n = some o → o.fullName = "nan".data) ∧
      (∀ cell, lookupCol r "Mobile Number" = some cell → cell ∈ NA_VALUES →
        ∀ o, transformRow r n = some o → o.mobile = "nan".data) ∧
      (∀ cell, lookupCol r "Postal Code" = some cell → cell ∈ NA_VALUES →
        ∀ o, transformRow r n = some o → o.pincode = "nan".data) ∧
      (∀ cell, lookupCol r "Street Address" = some cell → cell ∈ NA_VALUES →
        lookupCol r "Landmark" = none →
          ∀ o, transformRow r n = some o → o.deliveryAddress = "nan".data) := by
  refine ⟨transformRow_none_iff r n, ?_, ?_, ?_, ?_⟩
  · intro cell hcell hna o ho
    rcases transformRow_fields r n o ho with
      ⟨fnc, emc, stc, mbc, pcc, h1, h2, h3, h4, h5, hoeq⟩
    rw [hcell] at h1
    rw [Option.some.injEq] at h1
    subst h1
    subst hoeq
    show pyStrip (pdStr cell) = _
    unfold pdStr
    rw [if_pos hna]
    decide
  · intro cell hcell hna o ho
    rcases transformRow_fields r n o ho with
      ⟨fnc, emc, stc, mbc, pcc, h1, h2, h3, h4, h5, hoeq⟩
    rw [hcell] at h4
    rw [Option.some.injEq] at h4
    subst h4
    subst hoeq
    show pyStrip (pdStr cell) = _
    unfold pdStr
    rw [if_pos hna]
    decide
  · intro cell hcell hna o ho
    rcases transformRow_fields r n o ho with
      ⟨fnc, emc, stc, mbc, pcc, h1, h2, h3, h4, h5, hoeq⟩
    rw [hcell] at h5
    rw [Option.some.injEq] at h5
    subst h5
    subst hoeq
    show pyStrip (pdStr cell) = _
    unfold pdStr
    rw [if_pos hna]
    decide
  · intro cell hcell hna hlmn o ho
    rcases transformRow_fields r n o ho with
      ⟨fnc, emc, stc, mbc, pcc, h1, h2, h3, h4, h5, hoeq⟩
    rw [hcell] at h3
    rw [Option.some.injEq] at h3
    subst h3
    subst hoeq
    have hlm : landmarkOf r = [] := by
      unfold landmarkOf getOpt
      rw [hlmn]
      rfl
    show buildDeliveryAddress (pyStrip (pdStr cell)) (landmarkOf r) = _
    rw [hlm]
    unfold pdStr
    rw [if_pos hna]
    decide

/-- Witness for C10: a row whose required cells are all present but empty
is emitted with the text nan in its fields rather than skipped. -/
theorem C10_witness :
    transformRow rowC10 1 = some outC10 ∧
      outC10.fullName = "nan".data ∧ outC10.deliveryAddress = "nan".data :=
  ⟨by decide,
    (C10_nan_not_skipped rowC10 1).2.1 [] (by decide) (by decide) outC10
      (by decide),
    (C10_nan_not_skipped rowC10 1).2.2.2.2 [] (by decide) (by decide)
      (by decide) outC10 (by decide)⟩

end Logogear
